import Mathlib

/-!
# mysql-migration: schema check and row transcoding

A shallow embedding of `mysql-migration.go`: the schema compatibility check of
`getAndValidateSchemas`, the per-value type switch of `migrateData`, the
INSERT statement it builds for one row, and the control flow of
`migrateDatabase`.

Conventions of the embedding

* a Go `string` is a `List Char` (`GoString`), the code points of the string
  as Go reads them; every string operation the program uses
  (`strings.TrimRight` with cutset `" "`, `strings.Replace` of the
  one-character strings `"\\"` and `"'"`, concatenation, `strings.Join`) acts
  on code points, so it is the same on the list of characters; the conversion
  `string(t)` of a `[]uint8` is the UTF-8 decoding of the Go package
  `unicode/utf8`;
* a Go `[]uint8` is a `List Byte` with `Byte = Fin 256`;
* a Go `error` is the message it carries;
* a run-time panic (index out of range) is `none`.
-/

namespace MysqlMigration

/-! ## Data model -/

/-- Go `string`. -/
abbrev GoString := List Char

/-- Go `uint8`. -/
abbrev Byte := Fin 256

/-- Go `error`, identified with its message. -/
abbrev Error := GoString

/-- The struct `ColumnDefinition` (the field `Type` is spelled `Type_`). -/
structure ColumnDefinition where
  Name : GoString
  Type_ : GoString
deriving DecidableEq

/-- The struct `TableDefinition` (the field `Type` is spelled `Type_`). -/
structure TableDefinition where
  Name : GoString
  Type_ : GoString
  columns : List ColumnDefinition
deriving DecidableEq

/-- The dynamic value `database/sql` stores in a scan slot of type
`interface{}`, by the cases the type switch of `migrateData` tells apart.
A floating-point value is carried as the text `fmt.Sprint` prints for it and a
`time.Time` as the text `Format("2006-01-02 15:04:05.000000")` gives, since
neither formatting is code of this program. `other` is any dynamic type the
switch does not list (for instance `bool`). -/
inductive Value where
  | null
  | int (n : Int)
  | float (sprint : GoString)
  | time (formatted : GoString)
  | string (s : GoString)
  | bytes (byteArray : List Byte)
  | other
deriving DecidableEq

/-! ## String helpers of the Go standard library -/

/-- The character `'`. -/
def quote : Char := Char.ofNat 39

/-- The character `\`. -/
def backslash : Char := Char.ofNat 92

/-- Go `strings.TrimRight(s, cutset)`: all trailing code points contained in
`cutset` removed. -/
def TrimRight (s cutset : GoString) : GoString :=
  s.rdropWhile (fun c => decide (c ∈ cutset))

/-- Go `strings.Replace(s, old, new, -1)` for a one-character `old`: every
occurrence of `old` replaced by `new`. -/
def Replace (s : GoString) (old : Char) (new : GoString) : GoString :=
  match s with
  | [] => []
  | c :: rest => (if c = old then new else [c]) ++ Replace rest old new

/-- Go `strings.Join(elems, sep)`. -/
def Join (elems : List GoString) (sep : GoString) : GoString :=
  match elems with
  | [] => []
  | [e] => e
  | e :: rest => e ++ sep ++ Join rest sep

/-- Go `fmt.Sprint` of an `int` or `int64`: the decimal numeral. -/
def Sprint (n : Int) : GoString :=
  match n with
  | Int.ofNat m => (Nat.repr m).toList
  | Int.negSucc m => '-' :: (Nat.repr (m + 1)).toList

/-- The string case of the type switch (lines 96-99): trailing spaces trimmed,
backslashes doubled, then quotes escaped, the result wrapped in quotes. -/
def encodeString (t : GoString) : GoString :=
  let escapedString := TrimRight t " ".toList
  let escapedString := Replace escapedString backslash [backslash, backslash]
  let escapedString := Replace escapedString quote [backslash, quote]
  [quote] ++ escapedString ++ [quote]

/-- One lowercase hexadecimal digit, for a number below 16. -/
def hexDigit (n : Nat) : Char :=
  "0123456789abcdef".toList.getD n '0'

/-- The verb `%02x` of `fmt.Sprintf` on a `uint8`: two lowercase hexadecimal
digits, the high one first. -/
def hex02 (b : Byte) : GoString :=
  [hexDigit (b.val / 16), hexDigit (b.val % 16)]

/-- The verb `%x` of `fmt.Sprintf` on a `[]uint8`: two lowercase hexadecimal
digits for each byte, in order, with nothing in between. -/
def hexBytes (byteArray : List Byte) : GoString :=
  match byteArray with
  | [] => []
  | b :: rest => hex02 b ++ hexBytes rest

/-- Go `utf8.RuneError`, the code point U+FFFD. -/
def RuneError : Char := Char.ofNat 0xFFFD

/-- The lowest second byte `utf8.DecodeRune` accepts after the first byte `p0`
(the table `acceptRanges` of the package `unicode/utf8`). -/
def acceptLo (p0 : Byte) : Nat :=
  if p0.val = 0xE0 then 0xA0 else if p0.val = 0xF0 then 0x90 else 0x80

/-- The highest second byte `utf8.DecodeRune` accepts after the first byte `p0`
(the table `acceptRanges` of the package `unicode/utf8`). -/
def acceptHi (p0 : Byte) : Nat :=
  if p0.val = 0xED then 0x9F else if p0.val = 0xF4 then 0x8F else 0xBF

/-- Go `utf8.DecodeRune`: the first code point of `p` and its width in bytes.
A first byte below `0x80` is its own code point; `0xC2..0xDF` starts two
bytes, `0xE0..0xEF` three, `0xF0..0xF4` four, the following bytes in
`0x80..0xBF` and the second one within the accept range of the first. Anything
else is `RuneError` of width 1. The masks and shifts of the source are written
as remainders and products. -/
def DecodeRune (p : List Byte) : Char × Nat :=
  match p with
  | [] => (RuneError, 0)
  | p0 :: rest =>
    if p0.val < 0x80 then (Char.ofNat p0.val, 1)
    else if p0.val < 0xC2 ∨ 0xF4 < p0.val then (RuneError, 1)
    else
      match rest with
      | [] => (RuneError, 1)
      | b1 :: rest1 =>
        if b1.val < acceptLo p0 ∨ acceptHi p0 < b1.val then (RuneError, 1)
        else if p0.val < 0xE0 then (Char.ofNat (p0.val % 32 * 64 + b1.val % 64), 2)
        else
          match rest1 with
          | [] => (RuneError, 1)
          | b2 :: rest2 =>
            if b2.val < 0x80 ∨ 0xBF < b2.val then (RuneError, 1)
            else if p0.val < 0xF0 then
              (Char.ofNat (p0.val % 16 * 4096 + b1.val % 64 * 64 + b2.val % 64), 3)
            else
              match rest2 with
              | [] => (RuneError, 1)
              | b3 :: _ =>
                if b3.val < 0x80 ∨ 0xBF < b3.val then (RuneError, 1)
                else
                  (Char.ofNat (p0.val % 8 * 262144 + b1.val % 64 * 4096 + b2.val % 64 * 64
                    + b3.val % 64), 4)

/-- The code points of the bytes `p`, one `DecodeRune` after the other; `fuel`
bounds the number of code points, and the length of `p` is enough since every
step consumes at least one byte. -/
def decodeRunes (fuel : Nat) (p : List Byte) : GoString :=
  match fuel, p with
  | 0, _ => []
  | _, [] => []
  | fuel + 1, p0 :: rest =>
    (DecodeRune (p0 :: rest)).1
      :: decodeRunes fuel ((p0 :: rest).drop (DecodeRune (p0 :: rest)).2)

/-- Go `string(t)` for a `[]uint8`: the string holds the bytes of `t`, and its
code points are those the bytes decode to as UTF-8, a byte that does not
belong to a valid sequence being read as `RuneError`. -/
def stringOfBytes (t : List Byte) : GoString :=
  decodeRunes t.length t

/-- The `uniqueidentifier` case (lines 106-111). Each of the sixteen index
expressions `byteArray[k]` panics when `k` is out of range. -/
def encodeGuid (byteArray : List Byte) : Option GoString :=
  match byteArray.get? 0, byteArray.get? 1, byteArray.get? 2, byteArray.get? 3,
        byteArray.get? 4, byteArray.get? 5, byteArray.get? 6, byteArray.get? 7,
        byteArray.get? 8, byteArray.get? 9, byteArray.get? 10, byteArray.get? 11,
        byteArray.get? 12, byteArray.get? 13, byteArray.get? 14, byteArray.get? 15 with
  | some b0, some b1, some b2, some b3, some b4, some b5, some b6, some b7,
    some b8, some b9, some b10, some b11, some b12, some b13, some b14, some b15 =>
    some ([quote] ++ hex02 b3 ++ hex02 b2 ++ hex02 b1 ++ hex02 b0 ++ ['-']
      ++ hex02 b5 ++ hex02 b4 ++ ['-']
      ++ hex02 b7 ++ hex02 b6 ++ ['-']
      ++ hex02 b8 ++ hex02 b9 ++ ['-']
      ++ hex02 b10 ++ hex02 b11 ++ hex02 b12 ++ hex02 b13 ++ hex02 b14 ++ hex02 b15
      ++ [quote])
  | _, _, _, _, _, _, _, _, _, _, _, _, _, _, _, _ => none

/-- The `[]uint8` case of the type switch (lines 101-120): the inner switch on
the declared type of the source column. `some none` means that no case of the
inner switch matches, so nothing is assigned; `none` is a panic. -/
def encodeBytes (declaredType : GoString) (byteArray : List Byte) : Option (Option GoString) :=
  if declaredType = "uniqueidentifier".toList then
    (encodeGuid byteArray).map some
  else if declaredType = "varbinary".toList then
    if byteArray.length > 0 then
      some (some ("0x".toList ++ hexBytes byteArray))
    else
      some (some "0x0".toList)
  else if declaredType = "decimal".toList then
    some (some (stringOfBytes byteArray))
  else
    some none

/-- The body of the loop over `scans` (lines 87-124) for the value `v` at
index `i`: `none` is a panic, `some none` means `columnsValue[i]` is not
assigned, `some (some text)` means `columnsValue[i] = text`. The declared type
`mssqlTable.columns[i].Type` is only looked up in the `[]uint8` case, where
an index out of range panics. -/
def encodeValue (columns : List ColumnDefinition) (i : Nat) (v : Value) : Option (Option GoString) :=
  match v with
  | Value.null => some none
  | Value.int n => some (some (Sprint n))
  | Value.float sprint => some (some sprint)
  | Value.time formatted => some (some ([quote] ++ formatted ++ [quote]))
  | Value.string t => some (some (encodeString t))
  | Value.bytes byteArray =>
    match columns.get? i with
    | none => none
    | some column => encodeBytes column.Type_ byteArray
  | Value.other => some (some "NULL".toList)

/-- The loop `for i, v := range scans` (lines 86-125), from index `i` on, over
the slice `columnsValue`: an assignment `columnsValue[i] = text` panics when
`i` is out of range. -/
def fillValues (columns : List ColumnDefinition) (i : Nat) (scans : List Value)
    (columnsValue : List GoString) : Option (List GoString) :=
  match scans with
  | [] => some columnsValue
  | v :: rest =>
    match encodeValue columns i v with
    | none => none
    | some none => fillValues columns (i + 1) rest columnsValue
    | some (some text) =>
      if i < columnsValue.length then
        fillValues columns (i + 1) rest (columnsValue.set i text)
      else none

/-- The text of `sqlInsertText` that `migrateData` builds for one scanned row
(lines 85-135); `none` is a panic. -/
def insertText (mssqlTable mysqlTable : TableDefinition) (scans : List Value) : Option GoString :=
  match fillValues mssqlTable.columns 0 scans (List.replicate mysqlTable.columns.length []) with
  | none => none
  | some columnsValue =>
    let columnsName := mysqlTable.columns.map
      (fun column => "`".toList ++ column.Name ++ "`".toList)
    some ("INSERT INTO ".toList ++ ("`".toList ++ mysqlTable.Name ++ "`".toList)
      ++ " (".toList ++ Join columnsName ", ".toList
      ++ ") VALUES(".toList ++ Join columnsValue ", ".toList ++ ");".toList)

/-- The text of `columnsValue[i]` once the body of the loop has run for the
value `v` at index `i`: the text assigned, or the empty string the slot was
created with by `make` when nothing is assigned; `none` is a panic. -/
def slotText (columns : List ColumnDefinition) (i : Nat) (v : Value) : Option GoString :=
  match encodeValue columns i v with
  | none => none
  | some none => some []
  | some (some text) => some text

/-- The texts of the slots for the values `scans`, the first of them at index
`i`; `none` when one of them panics. -/
def encodeRow (columns : List ColumnDefinition) (i : Nat) (scans : List Value) :
    Option (List GoString) :=
  match scans with
  | [] => some []
  | v :: rest =>
    match slotText columns i v, encodeRow columns (i + 1) rest with
    | some text, some texts => some (text :: texts)
    | _, _ => none

/-! ## Schema check -/

/-- The loop of `getAndValidateSchemas` (lines 195-202). It runs after the
length check, so both slices have the same length and the index `i` visits
the two slices position by position; the result is the error the loop returns
with, or `none` when it runs to its end. `ToLower` is `strings.ToLower`. -/
def checkTables (ToLower : GoString → GoString)
    (mysqlTables mssqlTables : List TableDefinition) : Option Error :=
  match mysqlTables, mssqlTables with
  | mysqlTable :: mysqlRest, mssqlTable :: mssqlRest =>
    if ToLower mysqlTable.Name ≠ ToLower mssqlTable.Name then
      some "database's tables are different".toList
    else if mysqlTable.columns.length ≠ mssqlTable.columns.length then
      some "databases' count of columns are different".toList
    else checkTables ToLower mysqlRest mssqlRest
  | _, _ => none

/-- An operation `migrateData` performs on a connection: a `Query` on the
source or an `Exec` on the destination, with the statement text. -/
inductive Event where
  | query (sql : GoString)
  | exec (sql : GoString)
deriving DecidableEq

/-- The source connection `mssqlDb` as the program sees it: what
`getTablesName` returns on it and, for a `SELECT`, either an error or the rows
the cursor yields, each row as the values `Scan` stores. -/
structure SourceDb where
  getTablesName : Except Error (List TableDefinition)
  Query : GoString → Except Error (List (List Value))

/-- The destination connection `mysqlDb` as the program sees it: what
`getTablesName` returns on it and the error, if any, of an `Exec`, which may
depend on what was done before. -/
structure DestinationDb where
  getTablesName : Except Error (List TableDefinition)
  Exec : List Event → GoString → Option Error

/-- The function `getAndValidateSchemas` (lines 164-205): the triple it
returns, a `nil` slice being the empty list. -/
def getAndValidateSchemas (ToLower : GoString → GoString) (mssqlDb : SourceDb)
    (mysqlDb : DestinationDb) : List TableDefinition × List TableDefinition × Option Error :=
  match mssqlDb.getTablesName with
  | Except.error err => ([], [], some err)
  | Except.ok mssqlTables =>
    match mysqlDb.getTablesName with
    | Except.error err => ([], [], some err)
    | Except.ok mysqlTables =>
      if mysqlTables.length ≠ mssqlTables.length then
        ([], [], some "databases' count of tables are different".toList)
      else
        match checkTables ToLower mysqlTables mssqlTables with
        | some err => ([], [], some err)
        | none => (mssqlTables, mysqlTables, none)

/-! ## Orchestration -/

/-- How a call ends: it returns `nil`, returns an error, or panics. -/
inductive Outcome where
  | ok
  | failed (err : Error)
  | panic
deriving DecidableEq

/-- The loop `for res.Next()` of `migrateData` (lines 79-144) over the rows of
one table, with the trace of operations so far. -/
def migrateRows (mysqlDb : DestinationDb) (mssqlTable mysqlTable : TableDefinition)
    (rows : List (List Value)) (trace : List Event) : Outcome × List Event :=
  match rows with
  | [] => (Outcome.ok, trace)
  | scans :: rest =>
    match insertText mssqlTable mysqlTable scans with
    | none => (Outcome.panic, trace)
    | some sqlInsertText =>
      match mysqlDb.Exec trace sqlInsertText with
      | some err => (Outcome.failed err, trace ++ [Event.exec sqlInsertText])
      | none =>
        migrateRows mysqlDb mssqlTable mysqlTable rest (trace ++ [Event.exec sqlInsertText])

/-- The loop over `mssqlTables` of `migrateData` (lines 66-146), from index
`tableIndex` on. -/
def migrateTables (mssqlDb : SourceDb) (mysqlDb : DestinationDb)
    (mysqlTables : List TableDefinition) (tableIndex : Nat)
    (mssqlTables : List TableDefinition) (trace : List Event) : Outcome × List Event :=
  match mssqlTables with
  | [] => (Outcome.ok, trace)
  | mssqlTable :: rest =>
    match mysqlTables.get? tableIndex with
    | none => (Outcome.panic, trace)
    | some mysqlTable =>
      let sql := "SELECT * FROM ".toList ++ mssqlTable.Name ++ ";".toList
      match mssqlDb.Query sql with
      | Except.error err => (Outcome.failed err, trace ++ [Event.query sql])
      | Except.ok rows =>
        match migrateRows mysqlDb mssqlTable mysqlTable rows (trace ++ [Event.query sql]) with
        | (Outcome.ok, trace1) =>
          migrateTables mssqlDb mysqlDb mysqlTables (tableIndex + 1) rest trace1
        | stopped => stopped

/-- The function `migrateData` (lines 59-148): how it ends and the operations
it performed on the two connections, in order. -/
def migrateData (mssqlDb : SourceDb) (mysqlDb : DestinationDb)
    (mssqlTables mysqlTables : List TableDefinition) : Outcome × List Event :=
  let sql := "SET SESSION FOREIGN_KEY_CHECKS=0;".toList
  match mysqlDb.Exec [] sql with
  | some err => (Outcome.failed err, [Event.exec sql])
  | none => migrateTables mssqlDb mysqlDb mysqlTables 0 mssqlTables [Event.exec sql]

/-- The function `migrateDatabase` (lines 38-57), given what
`tryGetConnections` returns: how it ends and the operations `migrateData`
performed. -/
def migrateDatabase (ToLower : GoString → GoString)
    (tryGetConnections : Except Error (SourceDb × DestinationDb)) : Outcome × List Event :=
  match tryGetConnections with
  | Except.error err => (Outcome.failed err, [])
  | Except.ok (mssqlDb, mysqlDb) =>
    match getAndValidateSchemas ToLower mssqlDb mysqlDb with
    | (_, _, some err) => (Outcome.failed err, [])
    | (mssqlTables, mysqlTables, none) => migrateData mssqlDb mysqlDb mssqlTables mysqlTables

/-! ## Readers used to state the round trips -/

/-- Reads the body of a MySQL single-quoted literal, the opening quote already
consumed: backslash-backslash is a backslash, backslash-quote is a quote, an
unescaped quote ends the literal. The result is the value read and the input
left after the closing quote. `unescape` gives the meaning of a backslash
followed by any other character. -/
def readBody (unescape : Char → GoString) (input : GoString) : Option (GoString × GoString) :=
  match input with
  | [] => none
  | c :: rest =>
    if c = quote then some ([], rest)
    else if c = backslash then
      match rest with
      | [] => none
      | d :: rest1 =>
        match readBody unescape rest1 with
        | none => none
        | some (value, left) =>
          some ((if d = backslash then [backslash] else if d = quote then [quote]
            else unescape d) ++ value, left)
    else
      match readBody unescape rest with
      | none => none
      | some (value, left) => some (c :: value, left)

/-- Reads a MySQL single-quoted literal at the start of `input`. -/
def readLiteral (unescape : Char → GoString) (input : GoString) : Option (GoString × GoString) :=
  match input with
  | [] => none
  | c :: rest => if c = quote then readBody unescape rest else none

/-- The value of one hexadecimal digit character. -/
def hexValue (c : Char) : Option Nat :=
  let n := "0123456789abcdef".toList.indexOf c
  if n < 16 then some n else none

/-- Reads hexadecimal text two digits at a time, each pair a byte. -/
def decodeHex (text : GoString) : Option (List Byte) :=
  match text with
  | [] => some []
  | [_] => none
  | hi :: lo :: rest =>
    match hexValue hi, hexValue lo, decodeHex rest with
    | some h, some l, some bytes => some (Fin.ofNat (h * 16 + l) :: bytes)
    | _, _, _ => none

/-- The byte order of the `uniqueidentifier` case applied to a 16-byte
sequence: positions 3,2,1,0, 5,4, 7,6, then 8 to 15. -/
def guidOrder (b : List Byte) : Option (List Byte) :=
  if b.length = 16 then
    some ([3, 2, 1, 0, 5, 4, 7, 6, 8, 9, 10, 11, 12, 13, 14, 15].map (fun k => b.getD k 0))
  else none

/-- Go `utf8.EncodeRune`: the UTF-8 bytes of one code point. -/
def EncodeRune (c : Char) : List Byte :=
  if c.toNat < 0x80 then [Fin.ofNat c.toNat]
  else if c.toNat < 0x800 then
    [Fin.ofNat (0xC0 + c.toNat / 64), Fin.ofNat (0x80 + c.toNat % 64)]
  else if c.toNat < 0x10000 then
    [Fin.ofNat (0xE0 + c.toNat / 4096), Fin.ofNat (0x80 + c.toNat / 64 % 64),
      Fin.ofNat (0x80 + c.toNat % 64)]
  else
    [Fin.ofNat (0xF0 + c.toNat / 262144), Fin.ofNat (0x80 + c.toNat / 4096 % 64),
      Fin.ofNat (0x80 + c.toNat / 64 % 64), Fin.ofNat (0x80 + c.toNat % 64)]

/-- The bytes that carry the text `s`: its UTF-8 encoding. -/
def utf8Bytes (s : GoString) : List Byte :=
  match s with
  | [] => []
  | c :: rest => EncodeRune c ++ utf8Bytes rest

/-- ASCII lower-casing, an instance of `ToLower` for concrete examples. -/
def asciiLower (s : GoString) : GoString := s.map Char.toLower

/-! ## Concrete schemas for the examples -/

/-- A column with the given name and declared type. -/
def column (name type : String) : ColumnDefinition :=
  { Name := name.toList, Type_ := type.toList }

/-- A base table with the given name and columns. -/
def baseTable (name : String) (columns : List ColumnDefinition) : TableDefinition :=
  { Name := name.toList, Type_ := "BASE TABLE".toList, columns := columns }

/-- A source connection whose catalog lists `tables` and whose tables hold no
rows. -/
def sourceOf (tables : List TableDefinition) : SourceDb :=
  { getTablesName := Except.ok tables, Query := fun _ => Except.ok [] }

/-- A destination connection whose catalog lists `tables` and which accepts
every statement. -/
def destinationOf (tables : List TableDefinition) : DestinationDb :=
  { getTablesName := Except.ok tables, Exec := fun _ _ => none }

/-- The table `Documents` of the tests. -/
def documents : TableDefinition :=
  baseTable "Documents" [column "CompanyID" "int", column "DocumentID" "int",
    column "DocDate" "date", column "Description" "nchar"]

/-- The table `Documents` without its last column, as in
`TestGetAndValidateSchemasDifferentColumnsFail`, its name in lower case. -/
def documentsShort : TableDefinition :=
  baseTable "documents" [column "CompanyID" "int", column "DocumentID" "int",
    column "DocDate" "date"]

/-- The table `Documents1` of the tests. -/
def documents1 : TableDefinition :=
  baseTable "Documents1" [column "CompanyID" "int", column "DocumentID" "int",
    column "DocDate" "date", column "Description" "nchar"]

/-- A second table, named `Orders`. -/
def orders : TableDefinition :=
  baseTable "Orders" [column "OrderID" "int"]

/-- The sixteen bytes `00 11 22 ... ff`. -/
def sampleGuid : List Byte :=
  [0x00, 0x11, 0x22, 0x33, 0x44, 0x55, 0x66, 0x77, 0x88, 0x99, 0xaa, 0xbb, 0xcc, 0xdd, 0xee, 0xff]

/-- The bytes of a text of ASCII characters, one byte per character. -/
def bytesOf (text : String) : List Byte :=
  text.toList.map (fun c => Fin.ofNat c.toNat)

/-- A row of `Documents` as scanned from the source: the description is
padded with spaces by its fixed-width type. -/
def documentsRow : List Value :=
  [Value.int 1, Value.int 0, Value.time "1970-02-04 00:00:00.000000".toList,
    Value.string "Description 1   ".toList]

/-- A table `Amounts` whose second column is declared `numeric` and whose third
is declared `binary`, two types for which the source driver hands over a byte
sequence. -/
def amounts : TableDefinition :=
  baseTable "Amounts" [column "ID" "int", column "Amount" "numeric", column "Tag" "binary"]

/-- The table `DocumentsWithAmount` of `TestMigrationPointTypes`, whose two
amounts are declared nullable there. -/
def documentsWithAmount : TableDefinition :=
  baseTable "DocumentsWithAmount" [column "CompanyID" "int", column "DocumentID" "int",
    column "DecimalAmount" "decimal", column "FloatAmount" "float"]

/-- A row of `DocumentsWithAmount` whose decimal amount is null. -/
def amountRow : List Value :=
  [Value.int 1, Value.int 0, Value.null, Value.float "100.356".toList]

/-! ## Lemmas on the string escaping -/

/-- The two replacements of the string case, in the order of the source. -/
def escape (t : GoString) : GoString :=
  Replace (Replace t backslash [backslash, backslash]) quote [backslash, quote]

theorem Replace_append (s t : GoString) (old : Char) (new : GoString) :
    Replace (s ++ t) old new = Replace s old new ++ Replace t old new := by
  induction s with
  | nil => simp [Replace]
  | cons c rest ih => simp [Replace, ih]

theorem quote_ne_backslash : quote ≠ backslash := by decide

theorem escape_nil : escape [] = [] := by
  simp [escape, Replace]

theorem escape_cons_backslash (t : GoString) :
    escape (backslash :: t) = backslash :: backslash :: escape t := by
  have h : backslash ≠ quote := fun h => quote_ne_backslash h.symm
  simp [escape, Replace, Replace_append, h]

theorem escape_cons_quote (t : GoString) :
    escape (quote :: t) = backslash :: quote :: escape t := by
  simp [escape, Replace, Replace_append, quote_ne_backslash]

theorem escape_cons_other (c : Char) (t : GoString) (hq : c ≠ quote) (hb : c ≠ backslash) :
    escape (c :: t) = c :: escape t := by
  simp [escape, Replace, Replace_append, hq, hb]

theorem readBody_quote (unescape : Char → GoString) (rest : GoString) :
    readBody unescape (quote :: rest) = some ([], rest) := by
  rw [readBody.eq_def]
  simp

theorem readBody_backslash (unescape : Char → GoString) (d : Char) (rest : GoString) :
    readBody unescape (backslash :: d :: rest)
      = match readBody unescape rest with
        | none => none
        | some (value, left) =>
          some ((if d = backslash then [backslash] else if d = quote then [quote]
            else unescape d) ++ value, left) := by
  have h : backslash ≠ quote := fun h => quote_ne_backslash h.symm
  rw [readBody.eq_def]
  simp [h]

theorem readBody_other (unescape : Char → GoString) (c : Char) (rest : GoString)
    (hq : c ≠ quote) (hb : c ≠ backslash) :
    readBody unescape (c :: rest)
      = match readBody unescape rest with
        | none => none
        | some (value, left) => some (c :: value, left) := by
  rw [readBody.eq_def]
  simp [hq, hb]

theorem readBody_escape (unescape : Char → GoString) (t left : GoString) :
    readBody unescape (escape t ++ quote :: left) = some (t, left) := by
  induction t with
  | nil =>
    rw [escape_nil, List.nil_append, readBody_quote]
  | cons c rest ih =>
    by_cases hb : c = backslash
    · subst hb
      rw [escape_cons_backslash, List.cons_append, List.cons_append, readBody_backslash, ih]
      simp
    · by_cases hq : c = quote
      · subst hq
        rw [escape_cons_quote, List.cons_append, List.cons_append, readBody_backslash, ih]
        simp [quote_ne_backslash]
      · rw [escape_cons_other c rest hq hb, List.cons_append, readBody_other _ _ _ hq hb, ih]

theorem encodeString_eq (s : GoString) :
    encodeString s = quote :: (escape (TrimRight s " ".toList) ++ [quote]) := by
  simp [encodeString, escape]

theorem TrimRight_space_of_getLast (s : GoString) (h : s.getLast? ≠ some ' ') :
    TrimRight s " ".toList = s := by
  unfold TrimRight
  rw [List.rdropWhile_eq_self_iff]
  intro hl
  have h1 : s.getLast? = some (s.getLast hl) := List.getLast?_eq_getLast s hl
  have h2 : s.getLast hl ≠ ' ' := fun e => h (by rw [h1, e])
  simpa using h2

/-! ## Lemmas on the schema check -/

theorem checkTables_cons (ToLower : GoString → GoString) (mysqlTable mssqlTable : TableDefinition)
    (mysqlRest mssqlRest : List TableDefinition) :
    checkTables ToLower (mysqlTable :: mysqlRest) (mssqlTable :: mssqlRest)
      = if ToLower mysqlTable.Name ≠ ToLower mssqlTable.Name then
          some "database's tables are different".toList
        else if mysqlTable.columns.length ≠ mssqlTable.columns.length then
          some "databases' count of columns are different".toList
        else checkTables ToLower mysqlRest mssqlRest := by
  rw [checkTables]

theorem checkTables_nil (ToLower : GoString → GoString) (mssqlTables : List TableDefinition) :
    checkTables ToLower [] mssqlTables = none := by
  rw [checkTables]
  intros
  contradiction

/-- The loop ends without an error when every position agrees in name and in
column count. -/
theorem checkTables_none (ToLower : GoString → GoString) :
    ∀ (mysqlTables mssqlTables : List TableDefinition),
      mysqlTables.length = mssqlTables.length →
      (∀ (i : Nat) (h1 : i < mysqlTables.length) (h2 : i < mssqlTables.length),
        ToLower mysqlTables[i].Name = ToLower mssqlTables[i].Name
        ∧ mysqlTables[i].columns.length = mssqlTables[i].columns.length) →
      checkTables ToLower mysqlTables mssqlTables = none := by
  intro mysqlTables
  induction mysqlTables with
  | nil => intro mssqlTables _ _; exact checkTables_nil ToLower mssqlTables
  | cons a as ih =>
    intro mssqlTables hlen hall
    cases mssqlTables with
    | nil => simp at hlen
    | cons b bs =>
      have h0 := hall 0 (by simp) (by simp)
      simp only [List.getElem_cons_zero] at h0
      rw [checkTables_cons]
      simp only [ne_eq, h0.1, h0.2, not_true_eq_false, if_false]
      apply ih bs (by simpa using hlen)
      intro i h1 h2
      have := hall (i + 1) (by simpa using h1) (by simpa using h2)
      simpa using this

/-- The loop returns the name error when some position differs in name and no
earlier position differs in column count. -/
theorem checkTables_name (ToLower : GoString → GoString) :
    ∀ (mysqlTables mssqlTables : List TableDefinition) (i : Nat)
      (h1 : i < mysqlTables.length) (h2 : i < mssqlTables.length),
      ToLower mysqlTables[i].Name ≠ ToLower mssqlTables[i].Name →
      (∀ (j : Nat) (g1 : j < mysqlTables.length) (g2 : j < mssqlTables.length), j < i →
        mysqlTables[j].columns.length = mssqlTables[j].columns.length) →
      checkTables ToLower mysqlTables mssqlTables
        = some "database's tables are different".toList := by
  intro mysqlTables
  induction mysqlTables with
  | nil => intro mssqlTables i h1; simp at h1
  | cons a as ih =>
    intro mssqlTables i h1 h2 hne hcols
    cases mssqlTables with
    | nil => simp at h2
    | cons b bs =>
      rw [checkTables_cons]
      by_cases hn : ToLower a.Name = ToLower b.Name
      · cases i with
        | zero => exact absurd hn hne
        | succ k =>
          have hc := hcols 0 (by simp) (by simp) (by omega)
          simp only [List.getElem_cons_zero] at hc
          simp only [ne_eq, hn, hc, not_true_eq_false, if_false]
          apply ih bs k (by simpa using h1) (by simpa using h2)
          · simpa using hne
          · intro j g1 g2 hj
            have := hcols (j + 1) (by simpa using g1) (by simpa using g2) (by omega)
            simpa using this
      · simp [hn]

/-- The loop returns the column-count error when every position agrees in name
and some position differs in column count. -/
theorem checkTables_columns (ToLower : GoString → GoString) :
    ∀ (mysqlTables mssqlTables : List TableDefinition) (i : Nat)
      (h1 : i < mysqlTables.length) (h2 : i < mssqlTables.length),
      mysqlTables[i].columns.length ≠ mssqlTables[i].columns.length →
      (∀ (j : Nat) (g1 : j < mysqlTables.length) (g2 : j < mssqlTables.length),
        ToLower mysqlTables[j].Name = ToLower mssqlTables[j].Name) →
      checkTables ToLower mysqlTables mssqlTables
        = some "databases' count of columns are different".toList := by
  intro mysqlTables
  induction mysqlTables with
  | nil => intro mssqlTables i h1; simp at h1
  | cons a as ih =>
    intro mssqlTables i h1 h2 hne hnames
    cases mssqlTables with
    | nil => simp at h2
    | cons b bs =>
      rw [checkTables_cons]
      have hn := hnames 0 (by simp) (by simp)
      simp only [List.getElem_cons_zero] at hn
      by_cases hc : a.columns.length = b.columns.length
      · cases i with
        | zero => exact absurd hc hne
        | succ k =>
          simp only [ne_eq, hn, hc, not_true_eq_false, if_false]
          apply ih bs k (by simpa using h1) (by simpa using h2)
          · simpa using hne
          · intro j g1 g2
            have := hnames (j + 1) (by simpa using g1) (by simpa using g2)
            simpa using this
      · simp [hn, hc]

/-! ## Lemmas on the hexadecimal rendering -/

theorem hexValue_hexDigit : ∀ n : Fin 16, hexValue (hexDigit n.val) = some n.val := by
  decide

theorem hexDigit_mem : ∀ n : Fin 16, hexDigit n.val ∈ "0123456789abcdef".toList := by
  decide

theorem hexDigit_ne_dash : ∀ n : Fin 16, hexDigit n.val ≠ '-' := by
  decide

theorem hexBytes_cons (x : Byte) (rest : List Byte) :
    hexBytes (x :: rest) = hexDigit (x.val / 16) :: hexDigit (x.val % 16) :: hexBytes rest := by
  simp [hexBytes, hex02]

theorem decodeHex_cons_cons (x : Byte) (text : GoString) :
    decodeHex (hexDigit (x.val / 16) :: hexDigit (x.val % 16) :: text)
      = (decodeHex text).map (fun bytes => x :: bytes) := by
  have hhi := hexValue_hexDigit ⟨x.val / 16, by omega⟩
  have hlo := hexValue_hexDigit ⟨x.val % 16, by omega⟩
  simp only at hhi hlo
  have hx : (Fin.ofNat (x.val / 16 * 16 + x.val % 16) : Byte) = x := by
    apply Fin.ext
    simp only [Fin.ofNat]
    have := x.isLt
    omega
  rw [decodeHex, hhi, hlo]
  cases h : decodeHex text with
  | none => simp
  | some bytes => simp [hx]

theorem decodeHex_hexBytes (b : List Byte) : decodeHex (hexBytes b) = some b := by
  induction b with
  | nil => simp [hexBytes, decodeHex]
  | cons x rest ih => rw [hexBytes_cons, decodeHex_cons_cons, ih]; rfl

theorem hexBytes_length (b : List Byte) : (hexBytes b).length = 2 * b.length := by
  induction b with
  | nil => simp [hexBytes]
  | cons x rest ih => rw [hexBytes_cons]; simp [ih]; omega

theorem hexBytes_digits (b : List Byte) :
    ∀ c ∈ hexBytes b, c ∈ "0123456789abcdef".toList := by
  induction b with
  | nil => simp [hexBytes]
  | cons x rest ih =>
    intro c hc
    rw [hexBytes_cons] at hc
    rcases List.mem_cons.mp hc with h | hc
    · rw [h]; exact hexDigit_mem ⟨x.val / 16, by omega⟩
    · rcases List.mem_cons.mp hc with h | hc
      · rw [h]; exact hexDigit_mem ⟨x.val % 16, by omega⟩
      · exact ih c hc

theorem hexBytes_append (a b : List Byte) : hexBytes (a ++ b) = hexBytes a ++ hexBytes b := by
  induction a with
  | nil => simp [hexBytes]
  | cons x rest ih => simp [hexBytes, ih]

theorem filter_dash_hexBytes (b : List Byte) :
    (hexBytes b).filter (fun c => decide (c ≠ '-')) = hexBytes b := by
  rw [List.filter_eq_self]
  intro c hc
  have hmem := hexBytes_digits b c hc
  have : c ≠ '-' := by
    intro e
    rw [e] at hmem
    revert hmem
    decide
  simpa using this

theorem toNat_ofNat_byte : ∀ b : Byte, (Char.ofNat b.val).toNat = b.val := by
  set_option maxRecDepth 100000 in decide

theorem sixteen_bytes (b : List Byte) (h : 16 ≤ b.length) :
    ∃ b0 b1 b2 b3 b4 b5 b6 b7 b8 b9 b10 b11 b12 b13 b14 b15 tail,
      b = b0 :: b1 :: b2 :: b3 :: b4 :: b5 :: b6 :: b7 :: b8 :: b9 :: b10 :: b11 :: b12
        :: b13 :: b14 :: b15 :: tail := by
  rcases b with _ | ⟨b0, _ | ⟨b1, _ | ⟨b2, _ | ⟨b3, _ | ⟨b4, _ | ⟨b5, _ | ⟨b6, _ | ⟨b7,
    _ | ⟨b8, _ | ⟨b9, _ | ⟨b10, _ | ⟨b11, _ | ⟨b12, _ | ⟨b13, _ | ⟨b14,
    _ | ⟨b15, tail⟩⟩⟩⟩⟩⟩⟩⟩⟩⟩⟩⟩⟩⟩⟩⟩ <;>
  first
  | (simp at h; done)
  | exact ⟨_, _, _, _, _, _, _, _, _, _, _, _, _, _, _, _, _, rfl⟩

/-- The `uniqueidentifier` case on sixteen bytes or more. -/
theorem encodeGuid_cons (b0 b1 b2 b3 b4 b5 b6 b7 b8 b9 b10 b11 b12 b13 b14 b15 : Byte)
    (tail : List Byte) :
    encodeGuid (b0 :: b1 :: b2 :: b3 :: b4 :: b5 :: b6 :: b7 :: b8 :: b9 :: b10 :: b11 :: b12
        :: b13 :: b14 :: b15 :: tail)
      = some ([quote] ++ (hexBytes [b3, b2, b1, b0] ++ ['-'] ++ hexBytes [b5, b4] ++ ['-']
          ++ hexBytes [b7, b6] ++ ['-'] ++ hexBytes [b8, b9] ++ ['-']
          ++ hexBytes [b10, b11, b12, b13, b14, b15]) ++ [quote]) := by
  simp [encodeGuid, hexBytes]

/-! ## Lemmas on the loop over the values of a row -/

theorem set_append_length (done rest : List GoString) (x y : GoString) :
    (done ++ x :: rest).set done.length y = done ++ y :: rest := by
  induction done with
  | nil => simp
  | cons d ds ih => simp [ih]

/-- The loop over `scans`, started at index `done.length` on a slice whose
slots from there on are empty, leaves the slots already done as they are and
fills the others with the texts of `encodeRow`. -/
theorem fillValues_eq (columns : List ColumnDefinition) :
    ∀ (scans : List Value) (done : List GoString),
      fillValues columns done.length scans (done ++ List.replicate scans.length [])
        = (encodeRow columns done.length scans).map (fun texts => done ++ texts) := by
  intro scans
  induction scans with
  | nil => intro done; simp [fillValues, encodeRow]
  | cons v rest ih =>
    intro done
    have hrep : List.replicate (v :: rest).length ([] : GoString)
        = [] :: List.replicate rest.length [] := by
      simp [List.replicate_succ]
    rw [hrep]
    cases hv : encodeValue columns done.length v with
    | none => simp [fillValues, encodeRow, slotText, hv]
    | some assigned =>
      cases assigned with
      | none =>
        have ih1 := ih (done ++ [[]])
        simp only [List.length_append, List.length_singleton, List.append_assoc,
          List.singleton_append] at ih1
        simp only [fillValues, encodeRow, slotText, hv, ih1]
        cases encodeRow columns (done.length + 1) rest <;> simp
      | some text =>
        have ih1 := ih (done ++ [text])
        simp only [List.length_append, List.length_singleton, List.append_assoc,
          List.singleton_append] at ih1
        have hlt : done.length < (done ++ [] :: List.replicate rest.length ([] : GoString)).length := by
          simp
        simp only [fillValues, encodeRow, slotText, hv, hlt, if_true, set_append_length, ih1]
        cases encodeRow columns (done.length + 1) rest <;> simp

theorem encodeRow_eq_some_iff (columns : List ColumnDefinition) :
    ∀ (scans : List Value) (i : Nat) (literals : List GoString),
      encodeRow columns i scans = some literals ↔
        literals.length = scans.length
        ∧ ∀ (k : Nat) (h1 : k < scans.length) (h2 : k < literals.length),
            slotText columns (i + k) scans[k] = some literals[k] := by
  intro scans
  induction scans with
  | nil =>
    intro i literals
    cases literals <;> simp [encodeRow]
  | cons v rest ih =>
    intro i literals
    cases literals with
    | nil =>
      simp only [encodeRow]
      cases slotText columns i v <;> cases encodeRow columns (i + 1) rest <;> simp
    | cons t ts =>
      constructor
      · intro h
        simp only [encodeRow] at h
        cases hv : slotText columns i v with
        | none => simp [hv] at h
        | some text =>
          cases hr : encodeRow columns (i + 1) rest with
          | none => simp [hv, hr] at h
          | some texts =>
            simp only [hv, hr, Option.some.injEq, List.cons.injEq] at h
            obtain ⟨h1, h2⟩ := h
            subst h1 h2
            obtain ⟨hl, hk⟩ := (ih (i + 1) texts).mp hr
            refine ⟨by simp [hl], ?_⟩
            intro k g1 g2
            cases k with
            | zero => simpa using hv
            | succ n =>
              have := hk n (by simpa using g1) (by simpa using g2)
              simp only [List.getElem_cons_succ]
              rw [← this]
              congr 1
              omega
      · rintro ⟨hl, hk⟩
        have h0 := hk 0 (by simp) (by simp)
        simp only [Nat.add_zero, List.getElem_cons_zero] at h0
        have hr : encodeRow columns (i + 1) rest = some ts := by
          apply (ih (i + 1) ts).mpr
          refine ⟨by simpa using hl, ?_⟩
          intro k g1 g2
          have := hk (k + 1) (by simpa using g1) (by simpa using g2)
          simp only [List.getElem_cons_succ] at this
          rw [← this]
          congr 1
          omega
        simp [encodeRow, h0, hr]

theorem encodeRow_isSome (columns : List ColumnDefinition) :
    ∀ (scans : List Value) (i : Nat),
      (∀ (k : Nat) (h : k < scans.length), (slotText columns (i + k) scans[k]).isSome) →
      (encodeRow columns i scans).isSome := by
  intro scans
  induction scans with
  | nil => intro i _; simp [encodeRow]
  | cons v rest ih =>
    intro i hall
    have h0 := hall 0 (by simp)
    simp only [Nat.add_zero, List.getElem_cons_zero] at h0
    have hr : (encodeRow columns (i + 1) rest).isSome := by
      apply ih (i + 1)
      intro k h
      have := hall (k + 1) (by simpa using h)
      simp only [List.getElem_cons_succ] at this
      have e : i + 1 + k = i + (k + 1) := by omega
      rw [e]
      exact this
    obtain ⟨text, ht⟩ := Option.isSome_iff_exists.mp h0
    obtain ⟨texts, hts⟩ := Option.isSome_iff_exists.mp hr
    simp [encodeRow, ht, hts]

/-- A value has a slot text when the source column at its index exists and,
for a byte sequence declared `uniqueidentifier`, at least sixteen bytes are
there. -/
theorem slotText_isSome (columns : List ColumnDefinition) (i : Nat) (column : ColumnDefinition)
    (v : Value) (hcol : columns.get? i = some column)
    (hguid : ∀ b : List Byte, v = Value.bytes b →
      column.Type_ = "uniqueidentifier".toList → 16 ≤ b.length) :
    (slotText columns i v).isSome := by
  cases v with
  | bytes b =>
    simp only [slotText, encodeValue, hcol, encodeBytes]
    by_cases h1 : column.Type_ = "uniqueidentifier".toList
    · obtain ⟨b0, b1, b2, b3, b4, b5, b6, b7, b8, b9, b10, b11, b12, b13, b14, b15, tail, rfl⟩ :=
        sixteen_bytes b (hguid b rfl h1)
      simp only [h1, if_true, encodeGuid_cons, Option.map_some']
      rfl
    · simp only [h1, if_false]
      by_cases h2 : column.Type_ = "varbinary".toList
      · simp only [h2, if_true]
        by_cases h3 : b.length > 0
        · rw [if_pos h3]; rfl
        · rw [if_neg h3]; rfl
      · simp only [h2, if_false]
        by_cases h3 : column.Type_ = "decimal".toList
        · rw [if_pos h3]; rfl
        · rw [if_neg h3]; rfl
  | _ => simp [slotText, encodeValue]

/-! ## Lemmas on the conversion of bytes to text -/

theorem char_valid (c : Char) : c.toNat < 0xD800 ∨ (0xDFFF < c.toNat ∧ c.toNat < 0x110000) := c.valid

theorem byte_ofNat_val (n : Nat) : (Fin.ofNat n : Byte).val = n % 256 := rfl

theorem accept_range (p0 b1 : Byte)
    (h1 : 0x80 ≤ b1.val ∧ b1.val ≤ 0xBF ∧ (p0.val = 0xE0 → 0xA0 ≤ b1.val)
      ∧ (p0.val = 0xED → b1.val ≤ 0x9F) ∧ (p0.val = 0xF0 → 0x90 ≤ b1.val)
      ∧ (p0.val = 0xF4 → b1.val ≤ 0x8F)) :
    ¬ (b1.val < acceptLo p0 ∨ acceptHi p0 < b1.val) := by
  unfold acceptLo acceptHi
  split_ifs <;> omega

theorem DecodeRune_one (p0 : Byte) (rest : List Byte) (h0 : p0.val < 0x80) :
    DecodeRune (p0 :: rest) = (Char.ofNat p0.val, 1) := by
  unfold DecodeRune
  show (if p0.val < 0x80 then _ else _) = _
  rw [if_pos h0]

theorem DecodeRune_two (p0 b1 : Byte) (rest : List Byte)
    (h0 : 0xC2 ≤ p0.val ∧ p0.val < 0xE0) (h1 : 0x80 ≤ b1.val ∧ b1.val ≤ 0xBF) :
    DecodeRune (p0 :: b1 :: rest) = (Char.ofNat (p0.val % 32 * 64 + b1.val % 64), 2) := by
  have ha := accept_range p0 b1 (by omega)
  unfold DecodeRune
  show (if p0.val < 0x80 then _ else _) = _
  rw [if_neg (by omega), if_neg (by omega)]
  show (if b1.val < acceptLo p0 ∨ acceptHi p0 < b1.val then _ else _) = _
  rw [if_neg ha, if_pos (by omega)]

theorem DecodeRune_three (p0 b1 b2 : Byte) (rest : List Byte)
    (h0 : 0xE0 ≤ p0.val ∧ p0.val < 0xF0)
    (h1 : 0x80 ≤ b1.val ∧ b1.val ≤ 0xBF ∧ (p0.val = 0xE0 → 0xA0 ≤ b1.val)
      ∧ (p0.val = 0xED → b1.val ≤ 0x9F))
    (h2 : 0x80 ≤ b2.val ∧ b2.val ≤ 0xBF) :
    DecodeRune (p0 :: b1 :: b2 :: rest)
      = (Char.ofNat (p0.val % 16 * 4096 + b1.val % 64 * 64 + b2.val % 64), 3) := by
  have ha := accept_range p0 b1 (by omega)
  unfold DecodeRune
  show (if p0.val < 0x80 then _ else _) = _
  rw [if_neg (by omega), if_neg (by omega)]
  show (if b1.val < acceptLo p0 ∨ acceptHi p0 < b1.val then _ else _) = _
  rw [if_neg ha, if_neg (by omega)]
  show (if b2.val < 0x80 ∨ 0xBF < b2.val then _ else _) = _
  rw [if_neg (by omega), if_pos (by omega)]

theorem DecodeRune_four (p0 b1 b2 b3 : Byte) (rest : List Byte)
    (h0 : 0xF0 ≤ p0.val ∧ p0.val ≤ 0xF4)
    (h1 : 0x80 ≤ b1.val ∧ b1.val ≤ 0xBF ∧ (p0.val = 0xF0 → 0x90 ≤ b1.val)
      ∧ (p0.val = 0xF4 → b1.val ≤ 0x8F))
    (h2 : 0x80 ≤ b2.val ∧ b2.val ≤ 0xBF) (h3 : 0x80 ≤ b3.val ∧ b3.val ≤ 0xBF) :
    DecodeRune (p0 :: b1 :: b2 :: b3 :: rest)
      = (Char.ofNat (p0.val % 8 * 262144 + b1.val % 64 * 4096 + b2.val % 64 * 64
          + b3.val % 64), 4) := by
  have ha := accept_range p0 b1 (by omega)
  unfold DecodeRune
  show (if p0.val < 0x80 then _ else _) = _
  rw [if_neg (by omega), if_neg (by omega)]
  show (if b1.val < acceptLo p0 ∨ acceptHi p0 < b1.val then _ else _) = _
  rw [if_neg ha, if_neg (by omega)]
  show (if b2.val < 0x80 ∨ 0xBF < b2.val then _ else _) = _
  rw [if_neg (by omega), if_neg (by omega)]
  show (if b3.val < 0x80 ∨ 0xBF < b3.val then _ else _) = _
  rw [if_neg (by omega)]

theorem DecodeRune_EncodeRune (c : Char) (rest : List Byte) :
    DecodeRune (EncodeRune c ++ rest) = (c, (EncodeRune c).length) := by
  have hv := char_valid c
  have hc : Char.ofNat c.toNat = c := Char.ofNat_toNat c
  by_cases h1 : c.toNat < 0x80
  · have e : EncodeRune c = [Fin.ofNat c.toNat] := by
      unfold EncodeRune; rw [if_pos h1]
    rw [e, List.singleton_append, DecodeRune_one _ _ (by rw [byte_ofNat_val]; omega), byte_ofNat_val]
    have h : c.toNat % 256 = c.toNat := by omega
    rw [h, hc]; rfl
  · by_cases h2 : c.toNat < 0x800
    · have e : EncodeRune c = [Fin.ofNat (0xC0 + c.toNat / 64), Fin.ofNat (0x80 + c.toNat % 64)] := by
        unfold EncodeRune; rw [if_neg h1, if_pos h2]
      rw [e]
      show DecodeRune (_ :: _ :: rest) = _
      rw [DecodeRune_two _ _ _ (by rw [byte_ofNat_val]; omega) (by rw [byte_ofNat_val]; omega), byte_ofNat_val, byte_ofNat_val]
      have h : (0xC0 + c.toNat / 64) % 256 % 32 * 64 + (0x80 + c.toNat % 64) % 256 % 64
          = c.toNat := by omega
      rw [h, hc]; rfl
    · by_cases h3 : c.toNat < 0x10000
      · have e : EncodeRune c = [Fin.ofNat (0xE0 + c.toNat / 4096),
            Fin.ofNat (0x80 + c.toNat / 64 % 64), Fin.ofNat (0x80 + c.toNat % 64)] := by
          unfold EncodeRune; rw [if_neg h1, if_neg h2, if_pos h3]
        rw [e]
        show DecodeRune (_ :: _ :: _ :: rest) = _
        rw [DecodeRune_three _ _ _ _ (by rw [byte_ofNat_val]; omega)
          (by rw [byte_ofNat_val, byte_ofNat_val]; omega) (by rw [byte_ofNat_val]; omega), byte_ofNat_val, byte_ofNat_val, byte_ofNat_val]
        have h : (0xE0 + c.toNat / 4096) % 256 % 16 * 4096
            + (0x80 + c.toNat / 64 % 64) % 256 % 64 * 64 + (0x80 + c.toNat % 64) % 256 % 64
            = c.toNat := by omega
        rw [h, hc]; rfl
      · have e : EncodeRune c = [Fin.ofNat (0xF0 + c.toNat / 262144),
            Fin.ofNat (0x80 + c.toNat / 4096 % 64), Fin.ofNat (0x80 + c.toNat / 64 % 64),
            Fin.ofNat (0x80 + c.toNat % 64)] := by
          unfold EncodeRune; rw [if_neg h1, if_neg h2, if_neg h3]
        rw [e]
        show DecodeRune (_ :: _ :: _ :: _ :: rest) = _
        rw [DecodeRune_four _ _ _ _ _ (by rw [byte_ofNat_val]; omega)
          (by rw [byte_ofNat_val, byte_ofNat_val]; omega) (by rw [byte_ofNat_val]; omega) (by rw [byte_ofNat_val]; omega),
          byte_ofNat_val, byte_ofNat_val, byte_ofNat_val, byte_ofNat_val]
        have h : (0xF0 + c.toNat / 262144) % 256 % 8 * 262144
            + (0x80 + c.toNat / 4096 % 64) % 256 % 64 * 4096
            + (0x80 + c.toNat / 64 % 64) % 256 % 64 * 64 + (0x80 + c.toNat % 64) % 256 % 64
            = c.toNat := by omega
        rw [h, hc]; rfl

theorem EncodeRune_ne_nil (c : Char) : EncodeRune c ≠ [] := by
  unfold EncodeRune
  split_ifs <;> exact List.cons_ne_nil _ _

theorem decodeRunes_nil (fuel : Nat) : decodeRunes fuel [] = [] := by
  cases fuel <;> rfl

theorem decodeRunes_utf8Bytes :
    ∀ (s : GoString) (fuel : Nat), (utf8Bytes s).length ≤ fuel →
      decodeRunes fuel (utf8Bytes s) = s := by
  intro s
  induction s with
  | nil => intro fuel _; exact decodeRunes_nil fuel
  | cons c rest ih =>
    intro fuel hfuel
    have hdec := DecodeRune_EncodeRune c (utf8Bytes rest)
    have hlen : (utf8Bytes (c :: rest)).length
        = (EncodeRune c).length + (utf8Bytes rest).length := by
      simp [utf8Bytes]
    have hpos : 0 < (EncodeRune c).length := List.length_pos.mpr (EncodeRune_ne_nil c)
    show decodeRunes fuel (EncodeRune c ++ utf8Bytes rest) = c :: rest
    cases fuel with
    | zero => omega
    | succ f =>
      cases hp : EncodeRune c ++ utf8Bytes rest with
      | nil =>
        exact absurd (List.append_eq_nil.mp hp).1 (EncodeRune_ne_nil c)
      | cons p0 tail =>
        rw [hp] at hdec
        rw [decodeRunes, hdec, ← hp, List.drop_left]
        rw [ih f (by omega)]

theorem stringOfBytes_utf8Bytes (s : GoString) : stringOfBytes (utf8Bytes s) = s :=
  decodeRunes_utf8Bytes s _ (Nat.le_refl _)

theorem decodeRunes_ascii :
    ∀ (b : List Byte) (fuel : Nat), b.length ≤ fuel → (∀ x ∈ b, x.val < 0x80) →
      decodeRunes fuel b = b.map (fun x => Char.ofNat x.val) := by
  intro b
  induction b with
  | nil => intro fuel _ _; exact decodeRunes_nil fuel
  | cons x rest ih =>
    intro fuel hfuel hall
    cases fuel with
    | zero => simp at hfuel
    | succ f =>
      have hx : x.val < 0x80 := hall x (List.mem_cons_self x rest)
      rw [decodeRunes, DecodeRune_one x rest hx]
      simp only [List.drop_succ_cons, List.drop_zero, List.map_cons]
      rw [ih f (by simpa using hfuel) (fun y hy => hall y (List.mem_cons_of_mem x hy))]

theorem stringOfBytes_ascii (b : List Byte) (hall : ∀ x ∈ b, x.val < 0x80) :
    stringOfBytes b = b.map (fun x => Char.ofNat x.val) :=
  decodeRunes_ascii b _ (Nat.le_refl _) hall

/-! ## Theorems on the claims -/

/-- C1: the literal the string case of `migrateData` produces for a text `s`
reads back, as a MySQL single-quoted literal, to `s` with its trailing spaces
stripped, the reading ending exactly at the closing quote of the literal
(whatever text `left` follows it, that text is what is left); hence a text
without a trailing space reads back unchanged. -/
theorem string_literal_reads_back (unescape : Char → GoString)
    (columns : List ColumnDefinition) (i : Nat) (s : GoString) :
    ∃ literal, encodeValue columns i (Value.string s) = some (some literal)
      ∧ literal = [quote] ++ Replace (Replace (TrimRight s " ".toList) backslash
          [backslash, backslash]) quote [backslash, quote] ++ [quote]
      ∧ (∀ left, readLiteral unescape (literal ++ left) = some (TrimRight s " ".toList, left))
      ∧ readLiteral unescape literal = some (TrimRight s " ".toList, [])
      ∧ (s.getLast? ≠ some ' ' → readLiteral unescape literal = some (s, [])) := by
  have key : ∀ left, readLiteral unescape (encodeString s ++ left)
      = some (TrimRight s " ".toList, left) := by
    intro left
    simp [encodeString_eq, readLiteral, readBody_escape]
  refine ⟨encodeString s, rfl, rfl, key, ?_, ?_⟩
  · simpa using key []
  · intro h
    have := key []
    rw [TrimRight_space_of_getLast s h] at this
    simpa using this

/-- C1, at the text of the round-trip test: a quote and a backslash, no
trailing space. -/
theorem string_literal_reads_back_witness :
    "Description with 'quotes' \\ end".toList.getLast? ≠ some ' '
    ∧ readLiteral (fun c => [c])
        (encodeString "Description with 'quotes' \\ end".toList)
      = some ("Description with 'quotes' \\ end".toList, []) := by
  refine ⟨by decide, ?_⟩
  obtain ⟨literal, h1, _, _, _, h5⟩ := string_literal_reads_back (fun c => [c]) [] 0
    "Description with 'quotes' \\ end".toList
  simp only [encodeValue, Option.some.injEq] at h1
  subst h1
  exact h5 (by decide)

/-- C2 as stated fails: both sides have two tables and the names at position 1
differ (`Documents1`, `Orders`), but position 0 has equal names and different
column counts, and the check returns the column-count error, not the name
error. -/
theorem name_mismatch_after_column_mismatch :
    [documents, documents1].length = [documentsShort, orders].length
    ∧ asciiLower ([documents, documents1].getD 1 documents).Name
        ≠ asciiLower ([documentsShort, orders].getD 1 documents).Name
    ∧ getAndValidateSchemas asciiLower (sourceOf [documents, documents1])
        (destinationOf [documentsShort, orders])
      = ([], [], some "databases' count of columns are different".toList)
    ∧ getAndValidateSchemas asciiLower (sourceOf [documents, documents1])
        (destinationOf [documentsShort, orders])
      ≠ ([], [], some "database's tables are different".toList) := by
  refine ⟨by decide, by decide, by decide, by decide⟩

/-- C2, amended: for two schema sets with the same number of tables, if at
some position the two table names differ case-insensitively and no earlier
position has different column counts, `getAndValidateSchemas` returns the
error "database's tables are different" and no schema sets; the column counts
at the position itself do not matter, the name check comes first there. -/
theorem name_mismatch_reported (ToLower : GoString → GoString) (mssqlDb : SourceDb)
    (mysqlDb : DestinationDb) (mssqlTables mysqlTables : List TableDefinition)
    (hs : mssqlDb.getTablesName = Except.ok mssqlTables)
    (hd : mysqlDb.getTablesName = Except.ok mysqlTables)
    (hlen : mssqlTables.length = mysqlTables.length)
    (i : Nat) (h1 : i < mssqlTables.length) (h2 : i < mysqlTables.length)
    (hname : ToLower mssqlTables[i].Name ≠ ToLower mysqlTables[i].Name)
    (hcols : ∀ (j : Nat) (g1 : j < mssqlTables.length) (g2 : j < mysqlTables.length), j < i →
      mssqlTables[j].columns.length = mysqlTables[j].columns.length) :
    getAndValidateSchemas ToLower mssqlDb mysqlDb
      = ([], [], some "database's tables are different".toList) := by
  have hc := checkTables_name ToLower mysqlTables mssqlTables i h2 h1
    (fun e => hname e.symm) (fun j g1 g2 hj => (hcols j g2 g1 hj).symm)
  simp only [getAndValidateSchemas, hs, hd, hc, ne_eq, hlen, not_true_eq_false, if_false]

/-- C2, amended, at the schemas of
`TestGetAndValidateSchemasDifferentTablesNameFail`, the destination table
having one column fewer as well. -/
theorem name_mismatch_reported_witness :
    getAndValidateSchemas asciiLower (sourceOf [documents]) (destinationOf
        [baseTable "Documents1" [column "CompanyID" "int"]])
      = ([], [], some "database's tables are different".toList) :=
  name_mismatch_reported asciiLower (sourceOf [documents])
    (destinationOf [baseTable "Documents1" [column "CompanyID" "int"]])
    [documents] [baseTable "Documents1" [column "CompanyID" "int"]] rfl rfl rfl
    0 (by decide) (by decide) (by decide) (fun j _ _ hj => absurd hj (Nat.not_lt_zero j))

/-- C5: for two schema sets with the same number of tables, the same table
name case-insensitively at every position and the same number of columns at
every position, `getAndValidateSchemas` returns no error and returns the two
schema sets as they are, the source one first. -/
theorem matching_schemas_pass (ToLower : GoString → GoString) (mssqlDb : SourceDb)
    (mysqlDb : DestinationDb) (mssqlTables mysqlTables : List TableDefinition)
    (hs : mssqlDb.getTablesName = Except.ok mssqlTables)
    (hd : mysqlDb.getTablesName = Except.ok mysqlTables)
    (hlen : mssqlTables.length = mysqlTables.length)
    (hname : ∀ (i : Nat) (h1 : i < mssqlTables.length) (h2 : i < mysqlTables.length),
      ToLower mssqlTables[i].Name = ToLower mysqlTables[i].Name)
    (hcols : ∀ (i : Nat) (h1 : i < mssqlTables.length) (h2 : i < mysqlTables.length),
      mssqlTables[i].columns.length = mysqlTables[i].columns.length) :
    getAndValidateSchemas ToLower mssqlDb mysqlDb = (mssqlTables, mysqlTables, none) := by
  have hc := checkTables_none ToLower mysqlTables mssqlTables hlen.symm
    (fun i h1 h2 => ⟨(hname i h2 h1).symm, (hcols i h2 h1).symm⟩)
  simp only [getAndValidateSchemas, hs, hd, hc, ne_eq, hlen, not_true_eq_false, if_false]

/-- C5 at the schemas of `TestGetAndValidateSchemasSuccess`, the destination
name in lower case. -/
theorem matching_schemas_pass_witness :
    getAndValidateSchemas asciiLower (sourceOf [documents])
        (destinationOf [baseTable "documents" documents.columns])
      = ([documents], [baseTable "documents" documents.columns], none) :=
  matching_schemas_pass asciiLower (sourceOf [documents])
    (destinationOf [baseTable "documents" documents.columns])
    [documents] [baseTable "documents" documents.columns] rfl rfl rfl
    (fun i h1 _ => by
      have hi : i = 0 := by simpa using h1
      subst hi
      rfl)
    (fun i h1 _ => by
      have hi : i = 0 := by simpa using h1
      subst hi
      rfl)

/-- C6: for two schema sets with the same number of tables and the same table
name case-insensitively at every position, if at some position the two tables
have different numbers of columns, `getAndValidateSchemas` returns the error
"databases' count of columns are different" and no schema sets. -/
theorem column_count_mismatch_reported (ToLower : GoString → GoString) (mssqlDb : SourceDb)
    (mysqlDb : DestinationDb) (mssqlTables mysqlTables : List TableDefinition)
    (hs : mssqlDb.getTablesName = Except.ok mssqlTables)
    (hd : mysqlDb.getTablesName = Except.ok mysqlTables)
    (hlen : mssqlTables.length = mysqlTables.length)
    (hname : ∀ (j : Nat) (g1 : j < mssqlTables.length) (g2 : j < mysqlTables.length),
      ToLower mssqlTables[j].Name = ToLower mysqlTables[j].Name)
    (i : Nat) (h1 : i < mssqlTables.length) (h2 : i < mysqlTables.length)
    (hcols : mssqlTables[i].columns.length ≠ mysqlTables[i].columns.length) :
    getAndValidateSchemas ToLower mssqlDb mysqlDb
      = ([], [], some "databases' count of columns are different".toList) := by
  have hc := checkTables_columns ToLower mysqlTables mssqlTables i h2 h1
    (fun e => hcols e.symm) (fun j g1 g2 => (hname j g2 g1).symm)
  simp only [getAndValidateSchemas, hs, hd, hc, ne_eq, hlen, not_true_eq_false, if_false]

/-- C6 at the schemas of `TestGetAndValidateSchemasDifferentColumnsFail`. -/
theorem column_count_mismatch_reported_witness :
    getAndValidateSchemas asciiLower (sourceOf [documents]) (destinationOf [documentsShort])
      = ([], [], some "databases' count of columns are different".toList) :=
  column_count_mismatch_reported asciiLower (sourceOf [documents])
    (destinationOf [documentsShort]) [documents] [documentsShort] rfl rfl rfl
    (fun j g1 _ => by
      have hj : j = 0 := by simpa using g1
      subst hj
      rfl)
    0 (by decide) (by decide) (by decide)

/-- C7: for two schema sets with different numbers of tables,
`getAndValidateSchemas` returns the error "databases' count of tables are
different" and no schema sets, and `migrateDatabase` returns that error having
performed no operation of `migrateData`: no statement is sent to the
destination and no table of the source is read. -/
theorem table_count_mismatch_reported (ToLower : GoString → GoString) (mssqlDb : SourceDb)
    (mysqlDb : DestinationDb) (mssqlTables mysqlTables : List TableDefinition)
    (hs : mssqlDb.getTablesName = Except.ok mssqlTables)
    (hd : mysqlDb.getTablesName = Except.ok mysqlTables)
    (hlen : mssqlTables.length ≠ mysqlTables.length) :
    getAndValidateSchemas ToLower mssqlDb mysqlDb
      = ([], [], some "databases' count of tables are different".toList)
    ∧ migrateDatabase ToLower (Except.ok (mssqlDb, mysqlDb))
      = (Outcome.failed "databases' count of tables are different".toList, []) := by
  have hne : ¬ mysqlTables.length = mssqlTables.length := fun e => hlen e.symm
  have hv : getAndValidateSchemas ToLower mssqlDb mysqlDb
      = ([], [], some "databases' count of tables are different".toList) := by
    simp only [getAndValidateSchemas, hs, hd, ne_eq, hne, not_false_eq_true, if_true]
  refine ⟨hv, ?_⟩
  simp only [migrateDatabase, hv]

/-- C7 at the schemas of `TestGetAndValidateSchemasDifferentTablesCountFail`. -/
theorem table_count_mismatch_reported_witness :
    getAndValidateSchemas asciiLower (sourceOf [documents, documents1])
        (destinationOf [documents])
      = ([], [], some "databases' count of tables are different".toList)
    ∧ migrateDatabase asciiLower
        (Except.ok (sourceOf [documents, documents1], destinationOf [documents]))
      = (Outcome.failed "databases' count of tables are different".toList, []) :=
  table_count_mismatch_reported asciiLower (sourceOf [documents, documents1])
    (destinationOf [documents]) [documents, documents1] [documents] rfl rfl (by decide)

/-- C3: a null source value is not encoded as the text NULL. The type switch
is skipped for it, `columnsValue[i]` keeps the empty string it was created
with, and the statement built for the row has an empty slot in its VALUES
list. Evaluated on a row of the table `Documents` whose `Description` is
null. -/
theorem null_value_leaves_empty_slot :
    (∀ (columns : List ColumnDefinition) (i : Nat), encodeValue columns i Value.null = some none)
    ∧ fillValues documents.columns 0
        [Value.int 1, Value.int 0, Value.time "1970-02-04 00:00:00.000000".toList, Value.null]
        (List.replicate 4 [])
      = some ["1".toList, "0".toList, "'1970-02-04 00:00:00.000000'".toList, []]
    ∧ insertText documents documents
        [Value.int 1, Value.int 0, Value.time "1970-02-04 00:00:00.000000".toList, Value.null]
      = some ("INSERT INTO `Documents` (`CompanyID`, `DocumentID`, `DocDate`, `Description`) "
          ++ "VALUES(1, 0, '1970-02-04 00:00:00.000000', );").toList := by
  refine ⟨fun _ _ => rfl, by decide, by decide⟩

/-- C4: a 16-byte sequence `b` under the declared type `uniqueidentifier` is
encoded as a single-quoted text of 36 characters, groups of 8, 4, 4, 4 and 12
lowercase hexadecimal digits separated by `-`, two digits per byte, the bytes
taken in the order 3,2,1,0, 5,4, 7,6, 8,9, 10..15; reading the 32 digits back
in textual order and applying the same reordering gives `b`. -/
theorem guid_literal (columns : List ColumnDefinition) (i : Nat) (column : ColumnDefinition)
    (b : List Byte) (hcol : columns.get? i = some column)
    (htype : column.Type_ = "uniqueidentifier".toList) (hlen : b.length = 16) :
    ∃ text, encodeValue columns i (Value.bytes b) = some (some ([quote] ++ text ++ [quote]))
      ∧ text = hexBytes [b.getD 3 0, b.getD 2 0, b.getD 1 0, b.getD 0 0] ++ ['-']
          ++ hexBytes [b.getD 5 0, b.getD 4 0] ++ ['-']
          ++ hexBytes [b.getD 7 0, b.getD 6 0] ++ ['-']
          ++ hexBytes [b.getD 8 0, b.getD 9 0] ++ ['-']
          ++ hexBytes [b.getD 10 0, b.getD 11 0, b.getD 12 0, b.getD 13 0, b.getD 14 0,
              b.getD 15 0]
      ∧ text.length = 36
      ∧ (∀ c ∈ text, c = '-' ∨ c ∈ "0123456789abcdef".toList)
      ∧ (decodeHex (text.filter (fun c => decide (c ≠ '-')))).bind guidOrder = some b := by
  obtain ⟨b0, b1, b2, b3, b4, b5, b6, b7, b8, b9, b10, b11, b12, b13, b14, b15, tail, rfl⟩ :=
    sixteen_bytes b (by omega)
  have ht : tail = [] := by
    apply List.eq_nil_of_length_eq_zero
    simp only [List.length_cons] at hlen
    omega
  subst ht
  refine ⟨_, ?_, rfl, ?_, ?_, ?_⟩
  · simp only [encodeValue, hcol, encodeBytes, htype, if_true, encodeGuid_cons, Option.map_some']
    rfl
  · simp [hexBytes_length]
  · intro c hc
    simp only [List.mem_append, List.mem_singleton] at hc
    rcases hc with (((((((hc | hc) | hc) | hc) | hc) | hc) | hc) | hc) | hc
    all_goals first
      | exact Or.inl hc
      | exact Or.inr (hexBytes_digits _ c hc)
  · have hf : ∀ l : List Byte, List.filter (fun c => decide (c ≠ '-')) (hexBytes l) = hexBytes l :=
      filter_dash_hexBytes
    simp only [List.getD_cons_zero, List.getD_cons_succ, List.filter_append, hf]
    have hd : List.filter (fun c => decide (c ≠ '-')) ['-'] = [] := by decide
    rw [hd]
    simp only [List.append_nil, ← hexBytes_append, decodeHex_hexBytes, Option.some_bind]
    simp [guidOrder]

/-- C4 at the bytes `00 11 22 ... ff`. -/
theorem guid_literal_witness :
    encodeValue [column "ID" "uniqueidentifier"] 0 (Value.bytes sampleGuid)
      = some (some "'33221100-5544-7766-8899-aabbccddeeff'".toList) := by
  obtain ⟨text, h1, h2, _⟩ := guid_literal [column "ID" "uniqueidentifier"] 0
    (column "ID" "uniqueidentifier") sampleGuid rfl rfl rfl
  rw [h1, h2]
  decide

/-- C8: a byte sequence `b` under the declared type `varbinary` is encoded
unquoted; when `b` is not empty the text is `0x` followed by two lowercase
hexadecimal digits per byte of `b`, in order, and decoding the digits gives
`b`; when `b` is empty the text is `0x0`, which is neither the empty string
nor a bare `0x`. -/
theorem varbinary_literal (columns : List ColumnDefinition) (i : Nat) (column : ColumnDefinition)
    (b : List Byte) (hcol : columns.get? i = some column)
    (htype : column.Type_ = "varbinary".toList) :
    (b ≠ [] →
      encodeValue columns i (Value.bytes b) = some (some ("0x".toList ++ hexBytes b))
      ∧ (hexBytes b).length = 2 * b.length
      ∧ (∀ c ∈ hexBytes b, c ∈ "0123456789abcdef".toList)
      ∧ decodeHex (hexBytes b) = some b)
    ∧ (b = [] →
      encodeValue columns i (Value.bytes b) = some (some "0x0".toList)
      ∧ "0x0".toList ≠ ([] : GoString) ∧ "0x0".toList ≠ "0x".toList) := by
  have hne : ¬ column.Type_ = "uniqueidentifier".toList := by
    rw [htype]; decide
  constructor
  · intro hb
    have hpos : b.length > 0 := List.length_pos.mpr hb
    refine ⟨?_, hexBytes_length b, hexBytes_digits b, decodeHex_hexBytes b⟩
    simp only [encodeValue, hcol, encodeBytes, hne, if_false, hpos, if_true]
    simp only [htype, if_true]
  · intro hb
    subst hb
    refine ⟨?_, by decide, by decide⟩
    simp only [encodeValue, hcol, encodeBytes, hne, if_false]
    simp only [htype, if_true]
    rfl

/-- C8 at the bytes `ff 01 10` and at the empty sequence. -/
theorem varbinary_literal_witness :
    encodeValue [column "Data" "varbinary"] 0 (Value.bytes [0xff, 0x01, 0x10])
      = some (some "0xff0110".toList)
    ∧ encodeValue [column "Data" "varbinary"] 0 (Value.bytes [])
      = some (some "0x0".toList) :=
  ⟨((varbinary_literal [column "Data" "varbinary"] 0 (column "Data" "varbinary")
      [0xff, 0x01, 0x10] rfl rfl).1 (by decide)).1,
   ((varbinary_literal [column "Data" "varbinary"] 0 (column "Data" "varbinary")
      [] rfl rfl).2 rfl).1⟩

/-- C9: a byte sequence `b` under the declared type `decimal` is encoded as
the text `b` carries, unquoted and with nothing added: the literal is
`string(t)` and nothing else. Whenever `b` is the UTF-8 encoding of a text,
the literal is that text; when every byte is ASCII, as the digits, the sign
and the point of a decimal are, the literal has one character per byte, in
order, each character the one whose code is the byte. No number is computed
from the bytes. -/
theorem decimal_literal (columns : List ColumnDefinition) (i : Nat) (column : ColumnDefinition)
    (b : List Byte) (hcol : columns.get? i = some column)
    (htype : column.Type_ = "decimal".toList) :
    ∃ text, encodeValue columns i (Value.bytes b) = some (some text)
      ∧ text = stringOfBytes b
      ∧ (∀ s : GoString, b = utf8Bytes s → text = s)
      ∧ ((∀ x ∈ b, x.val < 0x80) →
          text = b.map (fun x => Char.ofNat x.val)
          ∧ text.length = b.length
          ∧ text.map Char.toNat = b.map (fun x => x.val)) := by
  have hne1 : ¬ column.Type_ = "uniqueidentifier".toList := by
    rw [htype]; decide
  have hne2 : ¬ column.Type_ = "varbinary".toList := by
    rw [htype]; decide
  refine ⟨stringOfBytes b, ?_, rfl, ?_, ?_⟩
  · simp only [encodeValue, hcol, encodeBytes, hne1, hne2, if_false]
    simp only [htype, if_true]
  · intro s hs
    rw [hs]
    exact stringOfBytes_utf8Bytes s
  · intro hall
    have h := stringOfBytes_ascii b hall
    refine ⟨h, by rw [h, List.length_map], ?_⟩
    rw [h, List.map_map]
    apply List.map_congr_left
    intro x _
    exact toNat_ofNat_byte x

/-- C9 at the digits of `TestMigrationPointTypes`, `100.356` and `-100.356`. -/
theorem decimal_literal_witness :
    (∀ x ∈ bytesOf "100.356", x.val < 0x80)
    ∧ encodeValue [column "DecimalAmount" "decimal"] 0 (Value.bytes (bytesOf "100.356"))
      = some (some "100.356".toList)
    ∧ (∀ x ∈ bytesOf "-100.356", x.val < 0x80)
    ∧ encodeValue [column "DecimalAmount" "decimal"] 0 (Value.bytes (bytesOf "-100.356"))
      = some (some "-100.356".toList) := by
  obtain ⟨t1, h1, _, _, a1⟩ := decimal_literal [column "DecimalAmount" "decimal"] 0
    (column "DecimalAmount" "decimal") (bytesOf "100.356") rfl rfl
  obtain ⟨t2, h2, _, _, a2⟩ := decimal_literal [column "DecimalAmount" "decimal"] 0
    (column "DecimalAmount" "decimal") (bytesOf "-100.356") rfl rfl
  have g1 : ∀ x ∈ bytesOf "100.356", x.val < 0x80 := by
    set_option maxRecDepth 100000 in decide
  have g2 : ∀ x ∈ bytesOf "-100.356", x.val < 0x80 := by
    set_option maxRecDepth 100000 in decide
  refine ⟨g1, ?_, g2, ?_⟩
  · rw [h1, (a1 g1).1]; decide
  · rw [h2, (a2 g2).1]; decide

/-- The statement of one row in terms of the texts of the slots, for a
destination table with as many columns as the row has values: the statement is
built exactly when every value has a slot text, it is then `INSERT INTO`, the
destination table name in backticks, the destination column names in
backticks joined by `, ` in parentheses, `VALUES(`, the slot texts joined by
`, `, and `);`. A slot text is the text the type switch assigns or, when it
assigns none, the empty string. Every value has a slot text when the source
table has as many columns as the row has values and every byte sequence
declared `uniqueidentifier` has at least sixteen bytes. -/
theorem insertText_of_slotTexts (mssqlTable mysqlTable : TableDefinition) (scans : List Value)
    (hd : mysqlTable.columns.length = scans.length) :
    (∀ literals : List GoString, literals.length = scans.length →
      (∀ (i : Nat) (h1 : i < scans.length) (h2 : i < literals.length),
        slotText mssqlTable.columns i scans[i] = some literals[i]) →
      insertText mssqlTable mysqlTable scans
        = some ("INSERT INTO ".toList ++ ("`".toList ++ mysqlTable.Name ++ "`".toList)
            ++ " (".toList
            ++ Join (mysqlTable.columns.map
                (fun column => "`".toList ++ column.Name ++ "`".toList)) ", ".toList
            ++ ") VALUES(".toList ++ Join literals ", ".toList ++ ");".toList))
    ∧ (∀ sql : GoString, insertText mssqlTable mysqlTable scans = some sql →
        ∃ literals : List GoString, literals.length = scans.length
          ∧ (∀ (i : Nat) (h1 : i < scans.length) (h2 : i < literals.length),
              slotText mssqlTable.columns i scans[i] = some literals[i])
          ∧ sql = "INSERT INTO ".toList ++ ("`".toList ++ mysqlTable.Name ++ "`".toList)
              ++ " (".toList
              ++ Join (mysqlTable.columns.map
                  (fun column => "`".toList ++ column.Name ++ "`".toList)) ", ".toList
              ++ ") VALUES(".toList ++ Join literals ", ".toList ++ ");".toList)
    ∧ (mssqlTable.columns.length = scans.length →
        (∀ (i : Nat) (h1 : i < scans.length) (h2 : i < mssqlTable.columns.length)
          (b : List Byte), scans[i] = Value.bytes b →
          mssqlTable.columns[i].Type_ = "uniqueidentifier".toList → 16 ≤ b.length) →
        (insertText mssqlTable mysqlTable scans).isSome) := by
  have hfill : fillValues mssqlTable.columns 0 scans (List.replicate mysqlTable.columns.length [])
      = encodeRow mssqlTable.columns 0 scans := by
    have := fillValues_eq mssqlTable.columns scans []
    simp only [List.length_nil, List.nil_append] at this
    rw [hd, this]
    cases encodeRow mssqlTable.columns 0 scans <;> simp
  refine ⟨?_, ?_, ?_⟩
  · intro literals hl hk
    have hrow : encodeRow mssqlTable.columns 0 scans = some literals := by
      apply (encodeRow_eq_some_iff mssqlTable.columns scans 0 literals).mpr
      refine ⟨hl, ?_⟩
      intro k h1 h2
      rw [Nat.zero_add]
      exact hk k h1 h2
    simp only [insertText, hfill, hrow]
  · intro sql hsql
    cases hrow : encodeRow mssqlTable.columns 0 scans with
    | none => simp [insertText, hfill, hrow] at hsql
    | some literals =>
      obtain ⟨hl, hk⟩ := (encodeRow_eq_some_iff mssqlTable.columns scans 0 literals).mp hrow
      refine ⟨literals, hl, ?_, ?_⟩
      · intro i h1 h2
        have := hk i h1 h2
        rw [Nat.zero_add] at this
        exact this
      · simp only [insertText, hfill, hrow, Option.some.injEq] at hsql
        exact hsql.symm
  · intro hs hguid
    have hrow : (encodeRow mssqlTable.columns 0 scans).isSome := by
      apply encodeRow_isSome
      intro k h
      rw [Nat.zero_add]
      have h2 : k < mssqlTable.columns.length := by omega
      apply slotText_isSome mssqlTable.columns k mssqlTable.columns[k] scans[k]
      · simp [List.getElem?_eq_getElem h2]
      · intro b hb ht
        exact hguid k h h2 b hb ht
    obtain ⟨literals, hlit⟩ := Option.isSome_iff_exists.mp hrow
    simp [insertText, hfill, hlit]

/-- The statement of a row every value of which is assigned a text by the type
switch: the i-th entry of the VALUES list is the text assigned for the i-th
value under the declared type of the i-th source column. -/
theorem insertText_of_encoded (mssqlTable mysqlTable : TableDefinition) (scans : List Value)
    (literals : List GoString) (hd : mysqlTable.columns.length = scans.length)
    (hl : literals.length = scans.length)
    (henc : ∀ (i : Nat) (h1 : i < scans.length) (h2 : i < literals.length),
      encodeValue mssqlTable.columns i scans[i] = some (some literals[i])) :
    insertText mssqlTable mysqlTable scans
      = some ("INSERT INTO ".toList ++ ("`".toList ++ mysqlTable.Name ++ "`".toList)
          ++ " (".toList
          ++ Join (mysqlTable.columns.map
              (fun column => "`".toList ++ column.Name ++ "`".toList)) ", ".toList
          ++ ") VALUES(".toList ++ Join literals ", ".toList ++ ");".toList) := by
  apply (insertText_of_slotTexts mssqlTable mysqlTable scans hd).1 literals hl
  intro i h1 h2
  simp only [slotText, henc i h1 h2]

/-- The statement built for a row of `Documents` as the tests insert it, every
value of which is assigned a text. -/
theorem insertText_documentsRow :
    insertText documents documents documentsRow
      = some ("INSERT INTO `Documents` (`CompanyID`, `DocumentID`, `DocDate`, `Description`) "
          ++ "VALUES(1, 0, '1970-02-04 00:00:00.000000', 'Description 1');").toList := by
  decide

/-- C10: on a row with a null value the statement is not the one the claim
describes. The destination table has four columns and the row four values,
the third of them null; the type switch assigns no text for it, and the
statement built has an empty third entry in its VALUES list, where the claim
has the encoding of the value, the text NULL. The rest of the statement is as
the claim says. -/
theorem insert_statement_null_literal :
    documentsWithAmount.columns.length = amountRow.length
    ∧ amountRow.get? 2 = some Value.null
    ∧ encodeValue documentsWithAmount.columns 2 Value.null = some none
    ∧ fillValues documentsWithAmount.columns 0 amountRow (List.replicate 4 [])
      = some ["1".toList, "0".toList, [], "100.356".toList]
    ∧ insertText documentsWithAmount documentsWithAmount amountRow
      = some ("INSERT INTO `DocumentsWithAmount` "
          ++ "(`CompanyID`, `DocumentID`, `DecimalAmount`, `FloatAmount`) "
          ++ "VALUES(1, 0, , 100.356);").toList
    ∧ insertText documentsWithAmount documentsWithAmount amountRow
      ≠ some ("INSERT INTO `DocumentsWithAmount` "
          ++ "(`CompanyID`, `DocumentID`, `DecimalAmount`, `FloatAmount`) "
          ++ "VALUES(1, 0, NULL, 100.356);").toList := by
  refine ⟨by decide, by decide, by decide, by decide, by decide, by decide⟩

/-- C11: a non-null value can get the empty string. For a byte sequence whose
declared type is `numeric` or `binary` no case of the inner switch matches,
nothing is assigned, and `columnsValue[i]` keeps the empty string it was
created with, which is neither the text NULL nor a non-empty literal; the
statement built for such a row has empty slots in its VALUES list. Evaluated
on the table `Amounts`, for every byte sequence and on one row. -/
theorem unlisted_byte_type_leaves_empty_slot :
    (∀ b : List Byte, encodeValue amounts.columns 1 (Value.bytes b) = some none)
    ∧ (∀ b : List Byte, slotText amounts.columns 1 (Value.bytes b) = some [])
    ∧ (∀ b : List Byte, slotText amounts.columns 2 (Value.bytes b) = some [])
    ∧ Value.bytes (bytesOf "100.356") ≠ Value.null
    ∧ fillValues amounts.columns 0
        [Value.int 1, Value.bytes (bytesOf "100.356"), Value.bytes [0xca, 0xfe]]
        (List.replicate 3 [])
      = some ["1".toList, [], []]
    ∧ insertText amounts amounts
        [Value.int 1, Value.bytes (bytesOf "100.356"), Value.bytes [0xca, 0xfe]]
      = some "INSERT INTO `Amounts` (`ID`, `Amount`, `Tag`) VALUES(1, , );".toList := by
  refine ⟨fun _ => rfl, fun _ => rfl, fun _ => rfl, by decide, by decide, by decide⟩

end MysqlMigration
